import Mathlib

/-!
Verification of the repository-state analysis layer of `gyst`, a CLI
assistant over a git working tree.  The definitions below are a shallow
embedding of `src/git/mod.rs` (staged-change extraction and structured
diff building) and `src/branch/mod.rs` (branch health analysis).

Conventions of the embedding:
* libgit2 values that reach the code through callbacks or queries
  (status entries, diff print events, the commit graph) are passed in as
  explicit data; the Rust functions become pure Lean functions over them.
* `Result<T>` from `anyhow` becomes `Except String T`.
* Machine integers become `Nat`/`Int`; the `as u32` and `i64` casts of
  the source are made explicit (`u32cast`, `u32ofNat`, `i64wrap`).
* Text is modelled as `List Char` where byte-level concatenation is
  reasoned about, and as `String` elsewhere.
-/

namespace Gyst

/-! ## Structured diff model — `src/git/mod.rs`, `get_structured_diff`

`git2::Diff::print(DiffFormat::Patch, cb)` drives a callback over every
line of the rendered patch.  An event carries the file delta, an
optional hunk record (present for hunk-header lines and for content
lines, absent for file-header lines), and the line itself (origin
marker character plus raw content bytes). -/

/-- One line delivered by the diff print callback.  `content` holds the
raw bytes of the line; for `+`/`-`/` ` lines libgit2 does not include
the origin marker in `content`. -/
structure DiffLine where
  origin : Char
  content : List Char
deriving DecidableEq, Repr

/-- Delta status of the file the current line belongs to
(`git2::Delta`). Only the constructors the embedded code inspects are
distinguished; `Renamed` is the one `get_structured_diff` branches on. -/
inductive Delta where
  | Added
  | Deleted
  | Modified
  | Renamed
  | Typechange
deriving DecidableEq, Repr

/-- Hunk description attached to hunk-header and content lines
(`git2::DiffHunk`). `header` is the `@@ ... @@` line's bytes. -/
structure HunkInfo where
  old_start : Nat
  old_lines : Nat
  new_start : Nat
  new_lines : Nat
  header : List Char
deriving DecidableEq, Repr

/-- One invocation of the `diff.print` callback: the delta, the hunk (if
the line belongs to one) and the line. -/
structure PrintEvent where
  status : Delta
  hunk : Option HunkInfo
  line : DiffLine
deriving DecidableEq, Repr

/-- The `DiffHunk` record built by `get_structured_diff`
(`src/git/mod.rs` lines 23-30). -/
structure DiffHunk where
  old_start : Nat
  old_lines : Nat
  new_start : Nat
  new_lines : Nat
  header : List Char
  lines : List DiffLine
deriving DecidableEq, Repr

/-- State threaded through the print callback of `get_structured_diff`:
the already flushed hunks and the currently open hunk. -/
abbrev HunkState := List DiffHunk × Option DiffHunk

/-- One step of the callback body of `get_structured_diff`
(`src/git/mod.rs` lines 185-209): on a hunk-carrying line, open a hunk
if none is open and append the line to the open hunk; on a hunk-less
line of a `Renamed` delta, flush the open hunk; otherwise do nothing. -/
def stepEvent (st : HunkState) (e : PrintEvent) : HunkState :=
  match e.hunk with
  | some h =>
    let cur : DiffHunk :=
      match st.2 with
      | none =>
        { old_start := h.old_start, old_lines := h.old_lines,
          new_start := h.new_start, new_lines := h.new_lines,
          header := h.header, lines := [] }
      | some c => c
    (st.1, some { cur with lines := cur.lines ++ [e.line] })
  | none =>
    if e.status = Delta.Renamed then
      match st.2 with
      | some c => (st.1 ++ [c], none)
      | none => st
    else
      st

/-- Final flush after the callback stream ends
(`src/git/mod.rs` lines 212-214). -/
def flushState (st : HunkState) : List DiffHunk :=
  match st.2 with
  | some c => st.1 ++ [c]
  | none => st.1

/-- `GitRepo::get_structured_diff` (`src/git/mod.rs` lines 180-217),
as a fold of the callback body over the print-event stream of the
staged diff. -/
def get_structured_diff (stream : List PrintEvent) : List DiffHunk :=
  flushState (stream.foldl stepEvent ([], none))

/-- Concatenation of the contents of one hunk record's lines. -/
def DiffHunk.lineBytes (h : DiffHunk) : List Char :=
  (h.lines.map DiffLine.content).flatten

/-- The diff text rebuilt by the callers in `src/main.rs` (lines 50-57):
for each hunk, the header followed by every line's content. -/
def renderHunks (hs : List DiffHunk) : List Char :=
  (hs.map (fun h => h.header ++ h.lineBytes)).flatten

/-- Concatenation of the line contents of every hunk record, without
the header fields. -/
def hunkRecordBytes (hs : List DiffHunk) : List Char :=
  (hs.map DiffHunk.lineBytes).flatten

/-- The contents of the hunk-carrying lines of a print stream (hunk
headers and content lines; file-header lines carry no hunk). -/
def streamHunkBytes (stream : List PrintEvent) : List Char :=
  (stream.map (fun e => if e.hunk.isSome then e.line.content else [])).flatten

/-- Modelled from libgit2's patch rendering (what "directly requesting
the raw patch text" of the same diff returns, e.g. `Patch::to_buf` or
printing while collecting every line): every callback line's content in
order, with the origin marker character prepended for context (` `),
addition (`+`) and deletion (`-`) lines only. -/
def rawPatch (stream : List PrintEvent) : List Char :=
  (stream.map (fun e =>
    if e.line.origin = '+' ∨ e.line.origin = '-' ∨ e.line.origin = ' ' then
      e.line.origin :: e.line.content
    else
      e.line.content)).flatten

/-! ## Staged changes model — `src/git/mod.rs`, `get_staged_changes`
and `has_staged_changes`

`repo.statuses` returns a list of entries; each carries a bit set of
status flags and an optional path, plus (for the rename case) the
head-to-index delta with optional old/new paths.  Only the index-side
flags queried by the code are modelled. -/

/-- The index-side status bits of one status entry that the embedded
code queries (`git2::Status`). -/
structure StatusBits where
  index_new : Bool
  index_modified : Bool
  index_deleted : Bool
  index_renamed : Bool
  index_typechange : Bool
deriving DecidableEq, Repr

/-- One entry of `repo.statuses(...)`: the flag set, the entry path
(`entry.path()`), and the head-to-index delta's (old path, new path)
when present (`entry.head_to_index()`). -/
structure StatusEntry where
  status : StatusBits
  path : Option String
  head_to_index : Option (Option String × Option String)
deriving DecidableEq, Repr

/-- `DiffStats` (`src/git/mod.rs` lines 14-19). -/
structure DiffStats where
  files_changed : Nat
  insertions : Nat
  deletions : Nat
deriving DecidableEq, Repr

/-- `StagedChanges` (`src/git/mod.rs` lines 5-12). -/
structure StagedChanges where
  added : List String
  modified : List String
  deleted : List String
  renamed : List (String × String)
  stats : DiffStats
deriving DecidableEq, Repr

/-- `GitRepo::has_staged_changes` (`src/git/mod.rs` lines 68-87): any
entry with an index-side new/modified/deleted/renamed/typechange bit. -/
def has_staged_changes (entries : List StatusEntry) : Bool :=
  entries.any fun e =>
    e.status.index_new || e.status.index_modified || e.status.index_deleted
      || e.status.index_renamed || e.status.index_typechange

/-- The body of the classification loop of `get_staged_changes`
(`src/git/mod.rs` lines 124-149) for one status entry. -/
def classifyEntry (c : StagedChanges) (e : StatusEntry) : StagedChanges :=
  let path := e.path.getD ""
  if e.status.index_new then
    { c with added := c.added ++ [path],
             stats := { c.stats with files_changed := c.stats.files_changed + 1 } }
  else if e.status.index_modified then
    { c with modified := c.modified ++ [path],
             stats := { c.stats with files_changed := c.stats.files_changed + 1 } }
  else if e.status.index_deleted then
    { c with deleted := c.deleted ++ [path],
             stats := { c.stats with files_changed := c.stats.files_changed + 1 } }
  else if e.status.index_renamed then
    match e.head_to_index with
    | some delta =>
      let old_path := delta.1.getD "unknown"
      let new_path := delta.2.getD "unknown"
      { c with renamed := c.renamed ++ [(old_path, new_path)],
               stats := { c.stats with files_changed := c.stats.files_changed + 1 } }
    | none => c
  else
    c

/-- The classification pass of `get_staged_changes` over all status
entries, starting from the empty `StagedChanges`. -/
def classify (entries : List StatusEntry) : StagedChanges :=
  entries.foldl classifyEntry
    { added := [], modified := [], deleted := [], renamed := [],
      stats := { files_changed := 0, insertions := 0, deletions := 0 } }

/-- Outcome of `self.get_diff()` followed by `diff.stats()`: the outer
`Except` is the result of `get_diff`, the inner one the result of
`stats()` on the obtained diff, yielding (insertions, deletions). -/
abbrev DiffStatsOutcome := Except String (Except String (Nat × Nat))

/-- The stats block of `get_staged_changes` (`src/git/mod.rs` lines
151-156): `if let Ok(diff) = self.get_diff()` drops a `get_diff` error
on the floor; `diff.stats()?` propagates a stats error. -/
def applyStats (c : StagedChanges) (diffRes : DiffStatsOutcome) :
    Except String StagedChanges :=
  match diffRes with
  | .error _ => .ok c
  | .ok statsRes =>
    match statsRes with
    | .error e => .error e
    | .ok (ins, del) =>
      .ok { c with stats := { c.stats with insertions := ins, deletions := del } }

/-- `GitRepo::get_staged_changes` (`src/git/mod.rs` lines 105-159):
classify every status entry, then fill in insertions/deletions from the
diff stats. -/
def get_staged_changes (entries : List StatusEntry)
    (diffRes : DiffStatsOutcome) : Except String StagedChanges :=
  applyStats (classify entries) diffRes

/-! ## Commit graph and branch model — `src/branch/mod.rs`

The libgit2 object model behind `BranchAnalyzer` is embedded as a
finite commit DAG: commits are natural numbers, topologically numbered
so that every parent has a smaller number than its child (any git
history admits such a numbering).  Branch enumeration and `find_branch`
become lookups in explicit name-to-tip association lists. -/

/-- A commit DAG.  `parents c` lists the parents of commit `c`; the
topological-numbering discipline (parents are strictly smaller) is
enforced structurally by ignoring any alleged parent `≥ c` when
computing reachability.  `time c` is the commit timestamp in seconds
(`git2::Time::seconds()`, an `i64`); `author c` is the author name
(`commit.author().name()`, which may be absent). -/
structure CommitGraph where
  parents : Nat → List Nat
  time : Nat → Int
  author : Nat → Option String

/-- One step of ancestor closure: add the parents of every commit in
the set (keeping only parents below their child, per the numbering
discipline). -/
def parentStep (g : CommitGraph) (s : Finset Nat) : Finset Nat :=
  s ∪ s.biUnion fun c => ((g.parents c).filter (fun p => p < c)).toFinset

/-- The set of commits reachable from `c` (ancestors of `c`, itself
included) — what a `revwalk` pushed at `c` visits and what
`git_graph_ahead_behind` counts over.  Since every reachability chain
from `c` strictly decreases, `c` steps of closure reach a fixpoint. -/
def reach (g : CommitGraph) (c : Nat) : Finset Nat :=
  (parentStep g)^[c] {c}

/-- Modelled from libgit2's `git_graph_ahead_behind` (called at
`src/branch/mod.rs` line 152): `(ahead, behind)` where ahead counts the
commits reachable from `a` but not from `b`, and behind counts commits
reachable from `b` but not from `a`. -/
def ahead_behind (g : CommitGraph) (a b : Nat) : Nat × Nat :=
  ((reach g a \ reach g b).card, (reach g b \ reach g a).card)

/-- Modelled from libgit2's `git_merge_base` (called at
`src/branch/mod.rs` line 108): a best common ancestor of `a` and `b`,
i.e. a common ancestor no other common ancestor properly descends
from; under the topological numbering the common ancestor with the
greatest number is such an element.  `none` when the two commits share
no ancestor, in which case the source's `?` surfaces an error.
Reachable commits never exceed the start commit under the topological
numbering, so scanning `0..a` finds every common ancestor. -/
def mergeBase (g : CommitGraph) (a b : Nat) : Option Nat :=
  ((List.range (a + 1)).filter fun c =>
    decide (c ∈ reach g a) && decide (c ∈ reach g b)).getLast?

/-- Modelled from libgit2's revwalk (`src/branch/mod.rs` lines
110-113): after `push(tip)` and `hide(base)`, with the default sort,
the first commit yielded by `next()` is `tip` itself unless `tip` is
reachable from `base` (hidden), in which case the walk yields
nothing. -/
def revwalk_first (g : CommitGraph) (tip base : Nat) : Option Nat :=
  if tip ∈ reach g base then none else some tip

/-- `TimeAgo` (`src/branch/mod.rs` lines 7-12); the fields are `u32`
values, represented as naturals below `2^32`. -/
structure TimeAgo where
  days : Nat
  hours : Nat
  minutes : Nat
deriving DecidableEq, Repr

/-- `BranchStatus` (`src/branch/mod.rs` lines 42-47). -/
inductive BranchStatus where
  | Healthy
  | NeedsAttention
  | Stale
deriving DecidableEq, Repr

/-- `BranchHealth` (`src/branch/mod.rs` lines 26-40).  The source also
stores rendered display strings for `last_activity` and `age`
(`TimeAgo::to_string`); the underlying `TimeAgo` values are kept
here. -/
structure BranchHealth where
  name : String
  status : BranchStatus
  last_activity : TimeAgo
  age : TimeAgo
  author : String
  commit_count : Nat
  ahead_count : Nat
  behind_count : Nat
deriving DecidableEq, Repr

/-- Wrap an integer to the `i64` range, the overflow behaviour of the
source's release-mode `i64` subtraction. -/
def i64wrap (x : Int) : Int :=
  (x + 2 ^ 63) % 2 ^ 64 - 2 ^ 63

/-- Rust's `as u32` cast on an `i64`: the low 32 bits. -/
def u32cast (x : Int) : Nat :=
  (x % 2 ^ 32).toNat

/-- Rust's `as u32` cast on a `usize` count. -/
def u32ofNat (n : Nat) : Nat :=
  n % 2 ^ 32

/-- `BranchAnalyzer::calculate_time_ago` (`src/branch/mod.rs` lines
67-84).  `now` is the wall-clock seconds since the epoch the source
reads from `SystemTime`; `ts` is the commit time.  The `i64`
subtraction and the three `as u32` casts are explicit. -/
def calculate_time_ago (now ts : Int) : TimeAgo :=
  let diff_secs := i64wrap (now - ts)
  let days := diff_secs.tdiv (24 * 60 * 60)
  let remaining_secs := diff_secs.tmod (24 * 60 * 60)
  let hours := remaining_secs.tdiv (60 * 60)
  let minutes := (remaining_secs.tmod (60 * 60)).tdiv 60
  { days := u32cast days, hours := u32cast hours, minutes := u32cast minutes }

/-- `stale_days` of `BranchAnalyzer::new` (`src/branch/mod.rs` line 62). -/
def stale_days : Nat := 30

/-- `inactive_days` of `BranchAnalyzer::new` (`src/branch/mod.rs` line 63). -/
def inactive_days : Nat := 7

/-- The repository as `BranchAnalyzer` sees it: the commit graph plus
the local and remote branch lists (branch name as reported by
`branch.name()`, which may be absent, and tip commit). -/
structure Repo where
  graph : CommitGraph
  local_branches : List (Option String × Nat)
  remote_branches : List (Option String × Nat)

/-- `repo.find_branch(name, BranchType::Local)`: look the name up among
the local branches. -/
def find_branch (r : Repo) (name : String) : Option Nat :=
  (r.local_branches.find? fun b => b.1 == some name).map (·.2)

/-- The main-branch lookup of `get_distance_from_main`
(`src/branch/mod.rs` lines 143-145): `main` first, then `master`. -/
def resolveMainFirst (r : Repo) : Except String Nat :=
  match find_branch r "main" with
  | some t => .ok t
  | none =>
    match find_branch r "master" with
    | some t => .ok t
    | none => .error "Failed to find main or master branch"

/-- The main-branch lookup inside `analyze_branch`
(`src/branch/mod.rs` lines 104-106): `master` first, then `main`. -/
def resolveMasterFirst (r : Repo) : Except String Nat :=
  match find_branch r "master" with
  | some t => .ok t
  | none =>
    match find_branch r "main" with
    | some t => .ok t
    | none => .error "Failed to find main branch"

/-- `BranchAnalyzer::get_distance_from_main` (`src/branch/mod.rs` lines
142-154) for a branch with tip `tip`. -/
def get_distance_from_main (r : Repo) (tip : Nat) : Except String (Nat × Nat) :=
  match resolveMainFirst r with
  | .error e => .error e
  | .ok main_tip => .ok (ahead_behind r.graph tip main_tip)

/-- The age-timestamp computation of `analyze_branch`
(`src/branch/mod.rs` lines 110-117): walk from `tip` hiding
`merge_base`; the time of the first commit yielded, falling back to the
tip's own time when the walk yields nothing. -/
def age_time (g : CommitGraph) (tip merge_base : Nat) : Int :=
  match revwalk_first g tip merge_base with
  | some c => g.time c
  | none => g.time tip

/-- `BranchAnalyzer::analyze_branch` (`src/branch/mod.rs` lines
86-140) for the branch `(name, tip)`, at wall-clock time `now`. -/
def analyze_branch (r : Repo) (name : Option String) (tip : Nat) (now : Int) :
    Except String BranchHealth :=
  let branch_name := name.getD "unknown"
  let last_activity := calculate_time_ago now (r.graph.time tip)
  let commit_count := (reach r.graph tip).card
  match get_distance_from_main r tip with
  | .error e => .error e
  | .ok (ahead, behind) =>
    match resolveMasterFirst r with
    | .error e => .error e
    | .ok main_tip =>
      match mergeBase r.graph tip main_tip with
      | none => .error "No merge base found"
      | some merge_base =>
        let age := calculate_time_ago now (age_time r.graph tip merge_base)
        let status :=
          if last_activity.days ≥ stale_days then BranchStatus.Stale
          else if last_activity.days ≥ inactive_days then BranchStatus.NeedsAttention
          else BranchStatus.Healthy
        .ok { name := branch_name, status := status,
              last_activity := last_activity, age := age,
              author := (r.graph.author tip).getD "unknown",
              commit_count := u32ofNat commit_count,
              ahead_count := u32ofNat ahead, behind_count := u32ofNat behind }

/-- `BranchFilter` (`src/branch/mod.rs` lines 193-198). -/
inductive BranchFilter where
  | All
  | Local
  | Remote
deriving DecidableEq, Repr

/-- The branches enumerated for a filter, in the order of the source's
`branch_types` loop (`src/branch/mod.rs` lines 159-167): local branches
first for `All`. -/
def branchesOf (r : Repo) : BranchFilter → List (Option String × Nat)
  | .All => r.local_branches ++ r.remote_branches
  | .Local => r.local_branches
  | .Remote => r.remote_branches

/-- The post-analysis filters of `analyze_branches`
(`src/branch/mod.rs` lines 172-182): maximum last-activity age in days
and exact author match, both optional. -/
def passesFilters (days : Option Nat) (author : Option String)
    (h : BranchHealth) : Bool :=
  (match days with
   | some max_days => !(h.last_activity.days > max_days)
   | none => true)
  && (match author with
      | some target => h.author == target
      | none => true)

/-- `BranchAnalyzer::analyze_branches` (`src/branch/mod.rs` lines
156-190): analyze every enumerated branch, silently dropping branches
whose analysis fails (`if let Ok(health)`), then apply the optional
filters. -/
def analyze_branches (r : Repo) (filter : BranchFilter) (days : Option Nat)
    (author : Option String) (now : Int) : Except String (List BranchHealth) :=
  .ok ((branchesOf r filter).filterMap fun b =>
    match analyze_branch r b.1 b.2 now with
    | .error _ => none
    | .ok health => if passesFilters days author health then some health else none)

/-- Follows the claim's words, for comparison with `age_time`: the
timestamp of the oldest (by commit time) commit that is an ancestor of
`tip` but not an ancestor of `merge_base`. -/
def spec_oldest_unique_time (g : CommitGraph) (tip merge_base : Nat) : Option Int :=
  (((List.range (tip + 1)).filter fun c =>
    decide (c ∈ reach g tip) && !decide (c ∈ reach g merge_base)).map g.time).min?

deriving instance DecidableEq for Except

/-! ## Concrete fixtures used by counterexamples and witnesses -/

/-- A print-event stream as libgit2 emits it for a staged diff that
adds one file `f` containing the single line `x`: the file-header line
(no hunk), the hunk-header line, and one addition line. -/
def cexStream : List PrintEvent :=
  [ { status := .Added, hunk := none,
      line := { origin := 'F',
                content := ("diff --git a/f b/f\n--- /dev/null\n+++ b/f\n").data } },
    { status := .Added,
      hunk := some { old_start := 0, old_lines := 0, new_start := 1, new_lines := 1,
                     header := ("@@ -0,0 +1 @@\n").data },
      line := { origin := 'H', content := ("@@ -0,0 +1 @@\n").data } },
    { status := .Added,
      hunk := some { old_start := 0, old_lines := 0, new_start := 1, new_lines := 1,
                     header := ("@@ -0,0 +1 @@\n").data },
      line := { origin := '+', content := ("x\n").data } } ]

/-- A status entry whose only index-side flag is a type change. -/
def typechangeEntry : StatusEntry :=
  { status := { index_new := false, index_modified := false, index_deleted := false,
                index_renamed := false, index_typechange := true },
    path := some "f",
    head_to_index := none }

/-- A status entry for a newly staged file `f`. -/
def addedEntry : StatusEntry :=
  { status := { index_new := true, index_modified := false, index_deleted := false,
                index_renamed := false, index_typechange := false },
    path := some "f",
    head_to_index := none }

/-- A three-commit graph `0 ← 1 ← 2` with strictly increasing commit
times 100, 200, 300. -/
def graphC4 : CommitGraph where
  parents := fun c => match c with | 1 => [0] | 2 => [1] | _ => []
  time := fun c => match c with | 0 => 100 | 1 => 200 | _ => 300
  author := fun _ => some "alice"

/-- A repository over `graphC4` with `main` at commit 0 and a feature
branch at commit 2, so commits 1 and 2 are unique to the branch. -/
def repoC4 : Repo where
  graph := graphC4
  local_branches := [(some "main", 0), (some "feature", 2)]
  remote_branches := []

/-- A repository having both a `main` branch (tip 1) and a `master`
branch (tip 2) over `graphC4`. -/
def repoBoth : Repo where
  graph := graphC4
  local_branches := [(some "main", 1), (some "master", 2)]
  remote_branches := []

/-- A repository with one local branch `feature` and neither `main` nor
`master`. -/
def repoNoMain : Repo where
  graph := graphC4
  local_branches := [(some "feature", 2)]
  remote_branches := []

/-! ## C1 — structured diff vs raw patch text -/

/-- The bytes eventually emitted for a callback state: the flushed
hunks' line contents followed by the open hunk's. -/
def stateBytes (st : HunkState) : List Char :=
  hunkRecordBytes (flushState st)

lemma stepEvent_bytes (st : HunkState) (e : PrintEvent) :
    stateBytes (stepEvent st e) =
      stateBytes st ++ (if e.hunk.isSome then e.line.content else []) := by
  obtain ⟨hs, cur⟩ := st
  cases he : e.hunk with
  | some h =>
    cases cur <;>
      simp [stateBytes, stepEvent, flushState, hunkRecordBytes, DiffHunk.lineBytes, he]
  | none =>
    by_cases hr : e.status = Delta.Renamed
    · cases cur <;>
        simp [stateBytes, stepEvent, flushState, hunkRecordBytes, DiffHunk.lineBytes, he, hr]
    · simp [stateBytes, stepEvent, he, hr]

lemma foldl_stepEvent_bytes (s : List PrintEvent) :
    ∀ st : HunkState,
      stateBytes (s.foldl stepEvent st) = stateBytes st ++ streamHunkBytes s := by
  induction s with
  | nil => intro st; simp [streamHunkBytes]
  | cons e s ih =>
    intro st
    simp only [List.foldl_cons]
    rw [ih, stepEvent_bytes]
    simp [streamHunkBytes]

/-- C1, amended: for every print-event stream, concatenating — over the
`DiffHunk` records returned by `get_structured_diff`, in order — the
contents of each record's lines reproduces exactly the contents of the
stream's hunk-carrying lines (hunk headers included, file headers and
origin markers excluded).  The raw patch differs from `main.rs`'s
header-plus-lines concatenation: file-header lines are absent, the
`+`/`-`/` ` markers are absent, and each record's header duplicates the
hunk-header line already stored among its lines. -/
theorem c1_line_contents_reconstruction (stream : List PrintEvent) :
    hunkRecordBytes (get_structured_diff stream) = streamHunkBytes stream := by
  have h := foldl_stepEvent_bytes stream ([], none)
  simpa [get_structured_diff, stateBytes, flushState, hunkRecordBytes] using h

/-- C1, counterexample: on the one-file-one-line staged diff
`cexStream`, concatenating each returned hunk's header followed by its
lines' contents (exactly what `src/main.rs` lines 50-57 do) is not
byte-identical to the raw patch text of the same diff. -/
theorem c1_counterexample :
    renderHunks (get_structured_diff cexStream) ≠ rawPatch cexStream := by
  decide

/-! ## C2 — `files_changed` equals the summed list lengths -/

/-- The C2 invariant on a `StagedChanges` value. -/
def filesChangedInv (c : StagedChanges) : Prop :=
  c.stats.files_changed =
    c.added.length + c.modified.length + c.deleted.length + c.renamed.length

lemma classifyEntry_inv (c : StagedChanges) (e : StatusEntry)
    (h : filesChangedInv c) : filesChangedInv (classifyEntry c e) := by
  unfold filesChangedInv at h ⊢
  unfold classifyEntry
  split
  · simp; omega
  · split
    · simp; omega
    · split
      · simp; omega
      · split
        · split
          · simp; omega
          · exact h
        · exact h

lemma foldl_classifyEntry_inv (l : List StatusEntry) :
    ∀ c : StagedChanges, filesChangedInv c →
      filesChangedInv (l.foldl classifyEntry c) := by
  induction l with
  | nil => intro c h; exact h
  | cons e l ih =>
    intro c h
    exact ih _ (classifyEntry_inv c e h)

lemma classify_inv (entries : List StatusEntry) :
    filesChangedInv (classify entries) := by
  exact foldl_classifyEntry_inv entries _ (by simp [filesChangedInv])

lemma applyStats_fields (c : StagedChanges) (d : DiffStatsOutcome)
    (c' : StagedChanges) (h : applyStats c d = .ok c') :
    c'.added = c.added ∧ c'.modified = c.modified ∧ c'.deleted = c.deleted ∧
      c'.renamed = c.renamed ∧ c'.stats.files_changed = c.stats.files_changed := by
  unfold applyStats at h
  split at h
  · cases h; simp
  · split at h
    · cases h
    · cases h; simp

/-- C2: every `StagedChanges` value returned by `get_staged_changes`
satisfies `stats.files_changed = |added| + |modified| + |deleted| +
|renamed|`. -/
theorem c2_files_changed_invariant (entries : List StatusEntry)
    (diffRes : DiffStatsOutcome) (changes : StagedChanges)
    (h : get_staged_changes entries diffRes = .ok changes) :
    changes.stats.files_changed =
      changes.added.length + changes.modified.length + changes.deleted.length +
        changes.renamed.length := by
  obtain ⟨ha, hm, hd, hr, hf⟩ :=
    applyStats_fields (classify entries) diffRes changes h
  have := classify_inv entries
  unfold filesChangedInv at this
  rw [ha, hm, hd, hr, hf, this]

/-- C2, witness: the invariant at a one-entry repository state. -/
theorem c2_files_changed_invariant_witness :
    (get_staged_changes [addedEntry] (.ok (.ok (1, 0))) =
      .ok { added := ["f"], modified := [], deleted := [], renamed := [],
            stats := { files_changed := 1, insertions := 1, deletions := 0 } }) ∧
    ({ added := ["f"], modified := [], deleted := [], renamed := [],
       stats := { files_changed := 1, insertions := 1, deletions := 0 } :
         StagedChanges}).stats.files_changed = 1 := by
  refine ⟨by decide, ?_⟩
  exact c2_files_changed_invariant [addedEntry] (.ok (.ok (1, 0))) _ (by decide)

/-! ## C7 — error handling of the stats pass -/

lemma foldl_classifyEntry_ins_del (l : List StatusEntry) :
    ∀ c : StagedChanges,
      (l.foldl classifyEntry c).stats.insertions = c.stats.insertions ∧
      (l.foldl classifyEntry c).stats.deletions = c.stats.deletions := by
  induction l with
  | nil => intro c; exact ⟨rfl, rfl⟩
  | cons e l ih =>
    intro c
    have hstep : (classifyEntry c e).stats.insertions = c.stats.insertions ∧
        (classifyEntry c e).stats.deletions = c.stats.deletions := by
      unfold classifyEntry
      split
      · simp
      · split
        · simp
        · split
          · simp
          · split
            · split
              · simp
              · simp
            · simp
    obtain ⟨h1, h2⟩ := ih (classifyEntry c e)
    simp only [List.foldl_cons]
    exact ⟨h1.trans hstep.1, h2.trans hstep.2⟩

/-- C7, amended: `get_staged_changes` silently discards a failure of
`get_diff` — it returns `Ok` with `insertions` and `deletions` left at
their default zero — while a failure of `stats()` on a successfully
obtained diff is propagated as an error. -/
theorem c7_stats_error_handling (entries : List StatusEntry) (e : String) :
    (get_staged_changes entries (.error e) = .ok (classify entries) ∧
      (classify entries).stats.insertions = 0 ∧
      (classify entries).stats.deletions = 0) ∧
    get_staged_changes entries (.ok (.error e)) = .error e := by
  have hz := foldl_classifyEntry_ins_del entries
    { added := [], modified := [], deleted := [], renamed := [],
      stats := { files_changed := 0, insertions := 0, deletions := 0 } }
  exact ⟨⟨rfl, hz.1, hz.2⟩, rfl⟩

/-- C7, counterexample: when `get_diff` fails, `get_staged_changes`
returns `Ok` with zero insertions and deletions instead of an error. -/
theorem c7_counterexample :
    get_staged_changes [addedEntry] (.error "Failed to generate diff") =
      .ok { added := ["f"], modified := [], deleted := [], renamed := [],
            stats := { files_changed := 1, insertions := 0, deletions := 0 } } := by
  decide

/-! ## C10 — staged type changes -/

/-- C10: a repository state whose only staged index entry is a type
change is detected by `has_staged_changes` but classified into none of
the four categories by `get_staged_changes`, whose `files_changed`
stays 0. -/
theorem c10_typechange_detected_not_classified :
    has_staged_changes [typechangeEntry] = true ∧
    get_staged_changes [typechangeEntry] (.ok (.ok (3, 1))) =
      .ok { added := [], modified := [], deleted := [], renamed := [],
            stats := { files_changed := 0, insertions := 3, deletions := 1 } } := by
  decide

/-! ## C3 — status thresholds -/

/-- C3: for every branch successfully analyzed, `status = Stale` iff
`last_activity.days ≥ 30`, `status = NeedsAttention` iff
`7 ≤ last_activity.days < 30`, and `status = Healthy` otherwise; the
characterization is in terms of `last_activity.days` alone, so no other
field influences it. -/
theorem c3_status_thresholds (r : Repo) (name : Option String) (tip : Nat)
    (now : Int) (bh : BranchHealth)
    (h : analyze_branch r name tip now = .ok bh) :
    (bh.status = .Stale ↔ 30 ≤ bh.last_activity.days) ∧
    (bh.status = .NeedsAttention ↔
      7 ≤ bh.last_activity.days ∧ bh.last_activity.days < 30) ∧
    (bh.status = .Healthy ↔ bh.last_activity.days < 7) := by
  unfold analyze_branch at h
  split at h
  · exact absurd h (by simp)
  · split at h
    · exact absurd h (by simp)
    · split at h
      · exact absurd h (by simp)
      · rw [Except.ok.injEq] at h
        subst h
        simp only [stale_days, inactive_days]
        set d := (calculate_time_ago now (r.graph.time tip)).days with hd
        by_cases h30 : 30 ≤ d
        · simp [h30]
          omega
        · by_cases h7 : 7 ≤ d
          · simp [h30, h7]
            omega
          · simp [h30, h7]
            omega

/-- C3, witness: the characterization at a concrete healthy branch. -/
theorem c3_status_thresholds_witness :
    (analyze_branch repoC4 (some "main") 0 691300 =
      .ok { name := "main", status := .NeedsAttention, last_activity := ⟨8, 0, 0⟩,
            age := ⟨8, 0, 0⟩, author := "alice", commit_count := 1,
            ahead_count := 0, behind_count := 0 }) ∧
    (BranchStatus.NeedsAttention = .NeedsAttention ↔ 7 ≤ 8 ∧ 8 < 30) := by
  refine ⟨by decide, ?_⟩
  have h := c3_status_thresholds repoC4 (some "main") 0 691300
    { name := "main", status := .NeedsAttention, last_activity := ⟨8, 0, 0⟩,
      age := ⟨8, 0, 0⟩, author := "alice", commit_count := 1,
      ahead_count := 0, behind_count := 0 } (by decide)
  exact h.2.1

/-! ## C4 — branch age computation -/

/-- C4: on the branch `feature` of `repoC4` (tip 2, merge base with
main 0, unique commits 1 and 2), the age timestamp the code computes is
the tip's own time 300 — the first commit yielded by the newest-first
revwalk — not the time 200 of the oldest commit unique to the branch
that the claim specifies; the full `analyze_branch` pipeline therefore
reports `age` equal to `last_activity`. -/
theorem c4_age_from_tip_not_oldest :
    mergeBase graphC4 2 0 = some 0 ∧
    revwalk_first graphC4 2 0 = some 2 ∧
    age_time graphC4 2 0 = graphC4.time 2 ∧
    graphC4.time 2 = 300 ∧
    spec_oldest_unique_time graphC4 2 0 = some 200 ∧
    analyze_branch repoC4 (some "feature") 2 86700 =
      .ok { name := "feature", status := .Healthy, last_activity := ⟨1, 0, 0⟩,
            age := ⟨1, 0, 0⟩, author := "alice", commit_count := 3,
            ahead_count := 2, behind_count := 0 } ∧
    calculate_time_ago 86700 200 = ⟨1, 0, 1⟩ := by
  decide

/-! ## C5 — main-branch lookup order at the two call sites -/

/-- C5, counterexample: in a repository having both a local `main`
(tip 1) and a local `master` (tip 2), the lookup used inside
`analyze_branch` resolves `master`, while the lookup used by
`get_distance_from_main` resolves `main` — so it is false that every
resolution tries `main` first, and false that the order is the same at
both call sites. -/
theorem c5_counterexample :
    resolveMasterFirst repoBoth = .ok 2 ∧
    resolveMainFirst repoBoth = .ok 1 ∧
    resolveMasterFirst repoBoth ≠ resolveMainFirst repoBoth := by
  decide

/-- C5, amended: `get_distance_from_main`'s lookup tries `main` first
and falls back to `master`; the merge-base lookup inside
`analyze_branch` tries `master` first and falls back to `main`; both
fail with a main-branch-not-found error when neither branch exists. -/
theorem c5_lookup_orders (r : Repo) :
    (∀ t, find_branch r "main" = some t → resolveMainFirst r = .ok t) ∧
    (∀ t, find_branch r "main" = none → find_branch r "master" = some t →
      resolveMainFirst r = .ok t) ∧
    (∀ t, find_branch r "master" = some t → resolveMasterFirst r = .ok t) ∧
    (∀ t, find_branch r "master" = none → find_branch r "main" = some t →
      resolveMasterFirst r = .ok t) ∧
    (find_branch r "main" = none → find_branch r "master" = none →
      resolveMainFirst r = .error "Failed to find main or master branch" ∧
      resolveMasterFirst r = .error "Failed to find main branch") := by
  refine ⟨?_, ?_, ?_, ?_, ?_⟩
  · intro t h
    unfold resolveMainFirst
    rw [h]
  · intro t h1 h2
    unfold resolveMainFirst
    rw [h1, h2]
  · intro t h
    unfold resolveMasterFirst
    rw [h]
  · intro t h1 h2
    unfold resolveMasterFirst
    rw [h1, h2]
  · intro h1 h2
    unfold resolveMainFirst resolveMasterFirst
    rw [h1, h2]
    exact ⟨rfl, rfl⟩

/-- C5, witness: the amended lookup orders at concrete repositories. -/
theorem c5_lookup_orders_witness :
    resolveMainFirst repoBoth = .ok 1 ∧
    resolveMasterFirst repoBoth = .ok 2 ∧
    resolveMainFirst repoNoMain = .error "Failed to find main or master branch" ∧
    resolveMasterFirst repoNoMain = .error "Failed to find main branch" := by
  refine ⟨(c5_lookup_orders repoBoth).1 1 (by decide),
    (c5_lookup_orders repoBoth).2.2.1 2 (by decide), ?_, ?_⟩
  · exact ((c5_lookup_orders repoNoMain).2.2.2.2 (by decide) (by decide)).1
  · exact ((c5_lookup_orders repoNoMain).2.2.2.2 (by decide) (by decide)).2

/-! ## C6 — scan behaviour without a main branch -/

/-- C6, counterexample: a repository with a branch but with neither
`main` nor `master` makes `analyze_branches` return `Ok` with an empty
list — every branch is skipped — not a whole-scan
main-branch-not-found error. -/
theorem c6_counterexample :
    analyze_branches repoNoMain .Local none none 0 = .ok [] := by
  decide

/-- C6, amended: when neither a local `main` nor a local `master`
exists, every branch's analysis fails at the main-branch lookup and is
silently skipped, so `analyze_branches` returns `Ok []` rather than an
error for the whole scan. -/
theorem c6_skips_all_branches (r : Repo) (filt : BranchFilter)
    (days : Option Nat) (author : Option String) (now : Int)
    (h1 : find_branch r "main" = none) (h2 : find_branch r "master" = none) :
    analyze_branches r filt days author now = .ok [] := by
  have hb : ∀ nm tp, analyze_branch r nm tp now =
      .error "Failed to find main or master branch" := by
    intro nm tp
    simp only [analyze_branch, get_distance_from_main, resolveMainFirst, h1, h2]
  unfold analyze_branches
  rw [Except.ok.injEq, List.filterMap_eq_nil_iff]
  intro b _
  rw [hb b.1 b.2]

/-- C6, witness: the amended behaviour at a concrete repository with
one branch and no main/master. -/
theorem c6_skips_all_branches_witness :
    analyze_branches repoNoMain .All (some 10) (some "alice") 500 = .ok [] := by
  exact c6_skips_all_branches repoNoMain .All (some 10) (some "alice") 500
    (by decide) (by decide)

/-! ## C8 — time-ago decomposition -/

/-- C8, counterexample: at `now = 86400 * 2^32` and `ts = 0` (a
non-negative delta), the `days` field is not `(now - ts) / 86400`: the
`as u32` cast truncates `2^32` to `0`. -/
theorem c8_counterexample :
    (calculate_time_ago (86400 * 2 ^ 32) 0).days ≠
      ((86400 * (2 : Int) ^ 32 - 0).toNat / 86400) := by
  decide

/-- Evaluation of `calculate_time_ago` at a non-negative in-range
delta written as a natural `d`. -/
lemma calculate_time_ago_of_cast (now ts : Int) (d : Nat)
    (hd : now - ts = (d : Int)) (hlt : (d : Int) < 2 ^ 63) :
    calculate_time_ago now ts =
      { days := d / 86400 % 2 ^ 32, hours := d % 86400 / 3600 % 2 ^ 32,
        minutes := d % 86400 % 3600 / 60 % 2 ^ 32 } := by
  unfold calculate_time_ago u32cast i64wrap
  rw [hd]
  have hw : ((d : Int) + 2 ^ 63) % 2 ^ 64 - 2 ^ 63 = (d : Int) := by
    rw [Int.emod_eq_of_lt (by omega) (by omega)]
    omega
  rw [hw]
  rfl

/-- C8, amended: for `ts ≤ now` with the delta inside the `i64` range,
`days` is `(now - ts) / 86400` reduced modulo `2^32` (the `as u32`
cast), `hours` is `((now - ts) % 86400) / 3600` and `minutes` is
`((now - ts) % 3600) / 60`, with no seconds component; the function is
total, so any delta — negative ones included — yields a `TimeAgo`
value rather than a failure. -/
theorem c8_decomposition (now ts : Int) (h1 : ts ≤ now)
    (h2 : now - ts < 2 ^ 63) :
    (calculate_time_ago now ts).days = (now - ts).toNat / 86400 % 2 ^ 32 ∧
    (calculate_time_ago now ts).hours = (now - ts).toNat % 86400 / 3600 ∧
    (calculate_time_ago now ts).minutes = (now - ts).toNat % 3600 / 60 := by
  have hnn : 0 ≤ now - ts := by omega
  obtain ⟨d, hd⟩ : ∃ d : Nat, now - ts = (d : Int) :=
    ⟨(now - ts).toNat, (Int.toNat_of_nonneg hnn).symm⟩
  have hlt : (d : Int) < 2 ^ 63 := hd ▸ h2
  have hds : (now - ts).toNat = d := by rw [hd, Int.toNat_natCast]
  rw [calculate_time_ago_of_cast now ts d hd hlt]
  dsimp only
  rw [hds]
  exact ⟨rfl, by omega, by omega⟩

/-- C8, witness: the amended decomposition at a one-day, one-hour,
one-minute, one-second delta. -/
theorem c8_decomposition_witness :
    (calculate_time_ago 90061 0).days = 1 ∧
    (calculate_time_ago 90061 0).hours = 1 ∧
    (calculate_time_ago 90061 0).minutes = 1 := by
  obtain ⟨hdy, hh, hm⟩ := c8_decomposition 90061 0 (by decide) (by decide)
  exact ⟨by rw [hdy]; decide, by rw [hh]; decide, by rw [hm]; decide⟩

/-! ## C9 — ahead/behind antisymmetry -/

/-- C9: the ahead/behind computation is antisymmetric — swapping
subject and reference swaps the two counts. -/
theorem c9_ahead_behind_antisymm (g : CommitGraph) (a b : Nat) :
    ahead_behind g b a = ((ahead_behind g a b).2, (ahead_behind g a b).1) := rfl

end Gyst
